import Mathlib

/-!
# blob-compression: the channel-fill loop of `main.go`

A shallow embedding of `src/main.go` (`calculateTxBytes` and the fill loop and
report of `main`) together with the properties the specification states about
them.

Modelling decisions.

* Go `int` values (heights, byte counters) are `Int`.  Every quantity here is a
  block height or a count of bytes held in memory or fetched so far; the 64-bit
  range is not reached and wrap-around is not modelled.
* `rlp.EncodeToBytes`, `ethclient.Client` and `batcher.ChannelBuilder` belong to
  other repositories.  A transaction carries the result of its RLP encoding, and
  the block source and the channel are arbitrary functions over an arbitrary
  world state `ω`, so that every behaviour of the collaborators is covered.
* The loop need not terminate (a channel may reject for ever, blocks may carry
  no chargeable byte), so it is run with a bound on the number of iterations.
* A run produces the ordered list of the calls it makes (`Event`), including
  each evaluation of the loop condition together with the values it reads.
-/

namespace BlobCompression

/-! ## Transactions and blocks -/

/-- The transaction type `types.DepositTxType` (`0x7E`). -/
def DepositTxType : Nat := 126

/-- A transaction as `calculateTxBytes` sees it: `tx.Type()` and the result of
`rlp.EncodeToBytes(tx)` (`none` when the encoder returns an error). -/
structure Transaction where
  txType : Nat
  encoded : Option (List Nat)
deriving DecidableEq, Repr

/-- A block as the program sees it: `block.Transactions()`. -/
structure Block where
  transactions : List Transaction
deriving DecidableEq, Repr

/-- The loop of `calculateTxBytes` (main.go lines 62-72) with `totalTxSize` as
accumulator; `none` is the `panic(err)` of line 69. -/
def calculateTxBytesLoop : List Transaction → Int → Option Int
  | [], totalTxSize => some totalTxSize
  | tx :: rest, totalTxSize =>
    if tx.txType = DepositTxType then
      calculateTxBytesLoop rest totalTxSize
    else
      match tx.encoded with
      | none => none
      | some txData => calculateTxBytesLoop rest (totalTxSize + (txData.length : Int))

/-- The function `calculateTxBytes` (main.go lines 60-74). -/
def calculateTxBytes (block : Block) : Option Int :=
  calculateTxBytesLoop block.transactions 0

/-- The non-deposit transactions of a block, in order. -/
def chargeableTxs (block : Block) : List Transaction :=
  block.transactions.filter (fun tx => decide (tx.txType ≠ DepositTxType))

/-- The length of a transaction's encoded form (0 when there is none). -/
def encodedLen (tx : Transaction) : Int :=
  ((tx.encoded.getD []).length : Int)

/-- The specification's size of a block (spec 4.1): the sum, over the
transactions whose kind is not protocol-deposit, of the length of the encoded
form. -/
def chargeableBytesSpec (block : Block) : Int :=
  ((chargeableTxs block).map encodedLen).sum

/-! ## The run: flags, collaborators, events -/

/-- The command-line flags of `main` (main.go lines 77-87). -/
structure Flags where
  numberOfBlobs : Int
  startBlock : Int
  minimumTxBytes : Int
  compressionAlgo : String
deriving DecidableEq, Repr

/-- The quotient `float64(num)/float64(den)` of main.go lines 141 and 143, kept as
its two operands. -/
structure Float64Quot where
  num : Int
  den : Int
deriving DecidableEq, Repr

/-- The record formatted on main.go line 143 and appended to `results.txt`:
the arguments of `fmt.Sprintf`, in order. -/
structure Report where
  timestamp : String
  startBlock : Int
  numberOfBlobs : Int
  minimumTxBytes : Int
  totalFrameSize : Int
  totalOutputtedTxSize : Int
  ratio : Float64Quot
  numBlockProcessed : Int
  compressionAlgo : String
deriving DecidableEq, Repr

/-- One argument of a `fmt.Println` call. -/
inductive PrintArg where
  | str (s : String)
  | int (v : Int)
  | float (q : Float64Quot)
deriving DecidableEq, Repr

/-- The calls a run makes, in the order it makes them.  `loopCond` is one
evaluation of the condition `totalProcessedTxSize < minimumTxBytes` of line 114,
with the values of `i` and `totalProcessedTxSize` it is evaluated at and its
result.  `addBlock` also records the height the block was fetched at. -/
inductive Event where
  | loopCond (i : Int) (totalProcessedTxSize : Int) (holds : Bool)
  | blockByNumber (number : Int) (result : Option Block)
  | addBlock (height : Int) (block : Block) (ok : Bool)
  | println (args : List PrintArg)
  | outputFrames
  | reset
  | outputBytes (result : Int)
  | writeString (record : Report)
  | close
deriving DecidableEq, Repr

/-- The external collaborators over a world state `ω` (node, channel, clock):
`client.BlockByNumber` (`none` is `err != nil`), `cb.AddBlock` (`false` is
`err != nil`), `cb.OutputFrames`, `cb.Reset`, `cb.OutputBytes` and
`time.Now().Format(time.RFC3339)`. -/
structure Collaborators (ω : Type) where
  blockByNumber : ω → Int → ω × Option Block
  addBlock : ω → Block → ω × Bool
  outputFrames : ω → ω
  reset : ω → ω
  outputBytes : ω → Int
  now : ω → String

/-- The variables of the loop of `main` (lines 111-114) and the world. -/
structure Vars (ω : Type) where
  world : ω
  i : Int
  totalOutputtedTxSize : Int
  totalProcessedTxSize : Int
  numBlockProcessed : Int

/-- How one execution of the loop body ends: the next evaluation of the
condition, `log.Fatal` (line 117) or the `panic` of `calculateTxBytes`. -/
inductive BodyEnd (ω : Type) where
  | next (v : Vars ω)
  | fatal
  | panicked

/-- How the loop ends. -/
inductive LoopEnd (ω : Type) where
  | exited (v : Vars ω)
  | fatal
  | panicked
  | outOfFuel

/-- The exit of the process: normal return with the record written,
`log.Fatal` (exit status 1), a panic, or the iteration bound reached. -/
inductive Outcome where
  | finished (report : Report)
  | fatal
  | panicked
  | outOfFuel
deriving DecidableEq, Repr

/-- A run: the calls made and how the process ended. -/
structure Run where
  trace : List Event
  outcome : Outcome
deriving DecidableEq, Repr

/-- The three `fmt.Println` calls of lines 122-124. -/
def overflowPrints (startBlock : Int) (i totalProcessedTxSize : Int) : List Event :=
  [ Event.println [PrintArg.str "Channel full, outputting frames"],
    Event.println [PrintArg.str "Processed tx size ", PrintArg.int totalProcessedTxSize],
    Event.println [PrintArg.str "Number of block processed ", PrintArg.int (i - startBlock)] ]

/-- One execution of the loop body (lines 115-134) followed by the post
statement `i++`; the `continue` of line 131 also runs the post statement. -/
def loopBody {ω : Type} (env : Collaborators ω) (flags : Flags) (v : Vars ω) :
    List Event × BodyEnd ω :=
  match env.blockByNumber v.world v.i with
  | (_, none) => ([Event.blockByNumber v.i none], BodyEnd.fatal)
  | (w1, some block) =>
    match env.addBlock w1 block with
    | (w2, false) =>
      ([Event.blockByNumber v.i (some block), Event.addBlock v.i block false]
          ++ overflowPrints flags.startBlock v.i v.totalProcessedTxSize
          ++ [Event.outputFrames, Event.reset],
        BodyEnd.next
          { world := env.reset (env.outputFrames w2)
            i := (v.i - 1) + 1
            totalOutputtedTxSize := v.totalProcessedTxSize
            totalProcessedTxSize := v.totalProcessedTxSize
            numBlockProcessed := v.i - flags.startBlock })
    | (w2, true) =>
      match calculateTxBytes block with
      | none =>
        ([Event.blockByNumber v.i (some block), Event.addBlock v.i block true],
          BodyEnd.panicked)
      | some n =>
        ([Event.blockByNumber v.i (some block), Event.addBlock v.i block true],
          BodyEnd.next
            { world := w2
              i := v.i + 1
              totalOutputtedTxSize := v.totalOutputtedTxSize
              totalProcessedTxSize := v.totalProcessedTxSize + n
              numBlockProcessed := v.numBlockProcessed })

/-- The `for` loop of lines 114-135, run for at most `fuel` iterations. -/
def mainLoop {ω : Type} (env : Collaborators ω) (flags : Flags) :
    Nat → Vars ω → List Event × LoopEnd ω
  | 0, v =>
    if v.totalProcessedTxSize < flags.minimumTxBytes then
      ([Event.loopCond v.i v.totalProcessedTxSize true], LoopEnd.outOfFuel)
    else
      ([Event.loopCond v.i v.totalProcessedTxSize false], LoopEnd.exited v)
  | fuel + 1, v =>
    if v.totalProcessedTxSize < flags.minimumTxBytes then
      match loopBody env flags v with
      | (es, BodyEnd.fatal) =>
        (Event.loopCond v.i v.totalProcessedTxSize true :: es, LoopEnd.fatal)
      | (es, BodyEnd.panicked) =>
        (Event.loopCond v.i v.totalProcessedTxSize true :: es, LoopEnd.panicked)
      | (es, BodyEnd.next v') =>
        (Event.loopCond v.i v.totalProcessedTxSize true :: es ++ (mainLoop env flags fuel v').1,
          (mainLoop env flags fuel v').2)
    else
      ([Event.loopCond v.i v.totalProcessedTxSize false], LoopEnd.exited v)

/-- The variables on entry to the loop (lines 111-114), with the world as the
set-up of lines 95-109 left it (log file opened, channel built, node dialled). -/
def initVars {ω : Type} (flags : Flags) (w0 : ω) : Vars ω :=
  { world := w0
    i := flags.startBlock
    totalOutputtedTxSize := 0
    totalProcessedTxSize := 0
    numBlockProcessed := 0 }

/-- The record of line 143 for the variables at the exit of the loop. -/
def mkReport {ω : Type} (env : Collaborators ω) (flags : Flags) (v : Vars ω) : Report :=
  { timestamp := env.now v.world
    startBlock := flags.startBlock
    numberOfBlobs := flags.numberOfBlobs
    minimumTxBytes := flags.minimumTxBytes
    totalFrameSize := env.outputBytes v.world
    totalOutputtedTxSize := v.totalOutputtedTxSize
    ratio := { num := env.outputBytes v.world, den := v.totalOutputtedTxSize }
    numBlockProcessed := v.numBlockProcessed
    compressionAlgo := flags.compressionAlgo }

/-- The statements after the loop (lines 138-146): `cb.OutputBytes()`, the three
`fmt.Println` calls, `file.WriteString` and the deferred `client.Close()`. -/
def epilogue {ω : Type} (env : Collaborators ω) (flags : Flags) (v : Vars ω) : List Event :=
  [ Event.outputBytes (env.outputBytes v.world),
    Event.println [PrintArg.str "total frames size: ", PrintArg.int (env.outputBytes v.world)],
    Event.println [PrintArg.str "total tx size: ", PrintArg.int v.totalOutputtedTxSize],
    Event.println [PrintArg.str "compression ratio: ",
      PrintArg.float { num := env.outputBytes v.world, den := v.totalOutputtedTxSize }],
    Event.writeString (mkReport env flags v),
    Event.close ]

/-- The function `main` from line 111 on, run for at most `fuel` iterations of
the loop from the world `w0`. -/
def main {ω : Type} (env : Collaborators ω) (flags : Flags) (fuel : Nat) (w0 : ω) : Run :=
  match mainLoop env flags fuel (initVars flags w0) with
  | (es, LoopEnd.exited v) =>
    { trace := es ++ epilogue env flags v, outcome := Outcome.finished (mkReport env flags v) }
  | (es, LoopEnd.fatal) => { trace := es, outcome := Outcome.fatal }
  | (es, LoopEnd.panicked) => { trace := es, outcome := Outcome.panicked }
  | (es, LoopEnd.outOfFuel) => { trace := es, outcome := Outcome.outOfFuel }

/-- The outcome and trace of `main` in terms of the loop's end. -/
def runOfLoop {ω : Type} (env : Collaborators ω) (flags : Flags)
    (r : List Event × LoopEnd ω) : Run :=
  match r with
  | (es, LoopEnd.exited v) =>
    { trace := es ++ epilogue env flags v, outcome := Outcome.finished (mkReport env flags v) }
  | (es, LoopEnd.fatal) => { trace := es, outcome := Outcome.fatal }
  | (es, LoopEnd.panicked) => { trace := es, outcome := Outcome.panicked }
  | (es, LoopEnd.outOfFuel) => { trace := es, outcome := Outcome.outOfFuel }

/-! ## Reading a trace -/

/-- An `AddBlock` call that returned an error. -/
def Event.isAddErr : Event → Bool
  | Event.addBlock _ _ false => true
  | _ => false

/-- An `AddBlock` call, whatever it returned. -/
def Event.isAdd : Event → Bool
  | Event.addBlock _ _ _ => true
  | _ => false

/-- A call on the channel or on the block source. -/
def Event.isCall : Event → Bool
  | Event.blockByNumber _ _ => true
  | Event.addBlock _ _ _ => true
  | Event.outputFrames => true
  | Event.reset => true
  | _ => false

/-- A `file.WriteString` call. -/
def Event.isWrite : Event → Bool
  | Event.writeString _ => true
  | _ => false

/-- A `cb.OutputBytes` call. -/
def Event.isOutputBytes : Event → Bool
  | Event.outputBytes _ => true
  | _ => false

/-- A `cb.OutputFrames` call. -/
def Event.isOutputFrames : Event → Bool
  | Event.outputFrames => true
  | _ => false

/-- An evaluation of the loop condition. -/
def Event.isCond : Event → Bool
  | Event.loopCond _ _ _ => true
  | _ => false

/-- The blocks of the successful `AddBlock` calls of a trace, in order. -/
def addedBlocks (t : List Event) : List Block :=
  t.filterMap (fun e => match e with
    | Event.addBlock _ b true => some b
    | _ => none)

/-- The heights of the successful `AddBlock` calls of a trace, in order. -/
def addedHeights (t : List Event) : List Int :=
  t.filterMap (fun e => match e with
    | Event.addBlock h _ true => some h
    | _ => none)

/-- The heights `startBlock, startBlock+1, ..., startBlock+n-1`. -/
def consecutiveFrom (startBlock : Int) : Nat → List Int
  | 0 => []
  | n + 1 => startBlock :: consecutiveFrom (startBlock + 1) n

/-- The sum of `calculateTxBytes` over a list of blocks (a block that does not
encode counts 0). -/
def sumTxBytes (bs : List Block) : Int :=
  (bs.map (fun b => (calculateTxBytes b).getD 0)).sum

/-- A property of every position of a list: `Q pre e post` for every way of
writing the list as `pre ++ e :: post`. -/
def AllSplits {α : Type} (Q : List α → α → List α → Prop) (t : List α) : Prop :=
  ∀ pre e post, t = pre ++ e :: post → Q pre e post

/-! ## The runs of `main` as a relation

`RunFrom env flags v t out`: started at the loop condition with variables `v`,
the program makes the calls `t` and ends with `out`.  One rule per path through
the loop body; `main_runFrom` below shows that every run of `main` is one. -/

/-- The runs of the loop and of the statements after it, path by path. -/
inductive RunFrom {ω : Type} (env : Collaborators ω) (flags : Flags) :
    Vars ω → List Event → Outcome → Prop where
  | exit (v : Vars ω) (hc : ¬ v.totalProcessedTxSize < flags.minimumTxBytes) :
      RunFrom env flags v
        (Event.loopCond v.i v.totalProcessedTxSize false :: epilogue env flags v)
        (Outcome.finished (mkReport env flags v))
  | outOfFuel (v : Vars ω) (hc : v.totalProcessedTxSize < flags.minimumTxBytes) :
      RunFrom env flags v [Event.loopCond v.i v.totalProcessedTxSize true] Outcome.outOfFuel
  | fetchErr (v : Vars ω) (hc : v.totalProcessedTxSize < flags.minimumTxBytes) (w1 : ω)
      (hf : env.blockByNumber v.world v.i = (w1, none)) :
      RunFrom env flags v
        [Event.loopCond v.i v.totalProcessedTxSize true, Event.blockByNumber v.i none]
        Outcome.fatal
  | encodeErr (v : Vars ω) (hc : v.totalProcessedTxSize < flags.minimumTxBytes) (w1 w2 : ω)
      (blk : Block) (hf : env.blockByNumber v.world v.i = (w1, some blk))
      (ha : env.addBlock w1 blk = (w2, true)) (hn : calculateTxBytes blk = none) :
      RunFrom env flags v
        [Event.loopCond v.i v.totalProcessedTxSize true, Event.blockByNumber v.i (some blk),
          Event.addBlock v.i blk true]
        Outcome.panicked
  | added (v : Vars ω) (hc : v.totalProcessedTxSize < flags.minimumTxBytes) (w1 w2 : ω)
      (blk : Block) (n : Int) (hf : env.blockByNumber v.world v.i = (w1, some blk))
      (ha : env.addBlock w1 blk = (w2, true)) (hn : calculateTxBytes blk = some n)
      (t : List Event) (out : Outcome)
      (hrest : RunFrom env flags
        { world := w2, i := v.i + 1, totalOutputtedTxSize := v.totalOutputtedTxSize,
          totalProcessedTxSize := v.totalProcessedTxSize + n,
          numBlockProcessed := v.numBlockProcessed } t out) :
      RunFrom env flags v
        (Event.loopCond v.i v.totalProcessedTxSize true :: Event.blockByNumber v.i (some blk) ::
          Event.addBlock v.i blk true :: t)
        out
  | overflow (v : Vars ω) (hc : v.totalProcessedTxSize < flags.minimumTxBytes) (w1 w2 : ω)
      (blk : Block) (hf : env.blockByNumber v.world v.i = (w1, some blk))
      (ha : env.addBlock w1 blk = (w2, false))
      (t : List Event) (out : Outcome)
      (hrest : RunFrom env flags
        { world := env.reset (env.outputFrames w2), i := v.i,
          totalOutputtedTxSize := v.totalProcessedTxSize,
          totalProcessedTxSize := v.totalProcessedTxSize,
          numBlockProcessed := v.i - flags.startBlock } t out) :
      RunFrom env flags v
        (Event.loopCond v.i v.totalProcessedTxSize true :: Event.blockByNumber v.i (some blk) ::
          Event.addBlock v.i blk false ::
          Event.println [PrintArg.str "Channel full, outputting frames"] ::
          Event.println [PrintArg.str "Processed tx size ", PrintArg.int v.totalProcessedTxSize] ::
          Event.println [PrintArg.str "Number of block processed ",
            PrintArg.int (v.i - flags.startBlock)] ::
          Event.outputFrames :: Event.reset :: t)
        out

/-! ## Scenario A of the specification -/

/-- World of scenario A: the chargeable bytes of the channel's current epoch and
the bytes flushed into frames so far. -/
structure WorldA where
  epochBytes : Int
  flushedBytes : Int
deriving DecidableEq, Repr

/-- A transaction of type 2 whose encoding is `n` zero bytes. -/
def plainTx (n : Nat) : Transaction :=
  { txType := 2, encoded := some (List.replicate n 0) }

/-- A deposit transaction whose encoding is `n` zero bytes. -/
def depositTx (n : Nat) : Transaction :=
  { txType := DepositTxType, encoded := some (List.replicate n 0) }

/-- First block of scenario A: chargeable size 40. -/
def blockA1 : Block := { transactions := [depositTx 9, plainTx 40] }

/-- Second block of scenario A: chargeable size 15 + 25 = 40. -/
def blockA2 : Block := { transactions := [plainTx 15, depositTx 64, plainTx 25] }

/-- Third block of scenario A: chargeable size 40. -/
def blockA3 : Block := { transactions := [plainTx 40] }

/-- Collaborators of scenario A: three blocks at the heights `startBlock`,
`startBlock+1`, `startBlock+2` (any other fetch fails), and a channel that
accepts a block while the chargeable bytes of its epoch stay within 100. -/
def envA (startBlock : Int) : Collaborators WorldA where
  blockByNumber := fun w h =>
    if h = startBlock then (w, some blockA1)
    else if h = startBlock + 1 then (w, some blockA2)
    else if h = startBlock + 2 then (w, some blockA3)
    else (w, none)
  addBlock := fun w b =>
    if w.epochBytes + (calculateTxBytes b).getD 0 ≤ 100 then
      ({ w with epochBytes := w.epochBytes + (calculateTxBytes b).getD 0 }, true)
    else (w, false)
  outputFrames := fun w => { epochBytes := 0, flushedBytes := w.flushedBytes + w.epochBytes }
  reset := fun w => { w with epochBytes := 0 }
  outputBytes := fun w => w.flushedBytes
  now := fun _ => "2024-03-14T00:00:01Z"

/-- Flags of scenario A. -/
def flagsA (startBlock threshold : Int) : Flags :=
  { numberOfBlobs := 1, startBlock := startBlock, minimumTxBytes := threshold,
    compressionAlgo := "zlib" }

/-- The variables of scenario A when the loop exits. -/
def finalVarsA (s : Int) : Vars WorldA :=
  { world := { epochBytes := 40, flushedBytes := 80 }, i := s + 3,
    totalOutputtedTxSize := 80, totalProcessedTxSize := 120, numBlockProcessed := 2 }

/-- The record written in scenario A. -/
def reportA (s threshold : Int) : Report :=
  { timestamp := "2024-03-14T00:00:01Z", startBlock := s, numberOfBlobs := 1,
    minimumTxBytes := threshold, totalFrameSize := 80, totalOutputtedTxSize := 80,
    ratio := { num := 80, den := 80 }, numBlockProcessed := 2, compressionAlgo := "zlib" }

/-- The trace of scenario A. -/
def traceA (s threshold : Int) : List Event :=
  [ Event.loopCond s 0 true,
    Event.blockByNumber s (some blockA1),
    Event.addBlock s blockA1 true,
    Event.loopCond (s + 1) 40 true,
    Event.blockByNumber (s + 1) (some blockA2),
    Event.addBlock (s + 1) blockA2 true,
    Event.loopCond (s + 2) 80 true,
    Event.blockByNumber (s + 2) (some blockA3),
    Event.addBlock (s + 2) blockA3 false,
    Event.println [PrintArg.str "Channel full, outputting frames"],
    Event.println [PrintArg.str "Processed tx size ", PrintArg.int 80],
    Event.println [PrintArg.str "Number of block processed ", PrintArg.int 2],
    Event.outputFrames,
    Event.reset,
    Event.loopCond (s + 2) 80 true,
    Event.blockByNumber (s + 2) (some blockA3),
    Event.addBlock (s + 2) blockA3 true,
    Event.loopCond (s + 3) 120 false,
    Event.outputBytes 80,
    Event.println [PrintArg.str "total frames size: ", PrintArg.int 80],
    Event.println [PrintArg.str "total tx size: ", PrintArg.int 80],
    Event.println [PrintArg.str "compression ratio: ", PrintArg.float { num := 80, den := 80 }],
    Event.writeString (reportA s threshold),
    Event.close ]

/-! ## Lemmas on `calculateTxBytes` -/

theorem calculateTxBytesLoop_eq (txs : List Transaction) (acc : Int)
    (h : ∀ tx ∈ txs, tx.txType ≠ DepositTxType → tx.encoded.isSome = true) :
    calculateTxBytesLoop txs acc =
      some (acc + ((txs.filter (fun tx => decide (tx.txType ≠ DepositTxType))).map
        encodedLen).sum) := by
  induction txs generalizing acc with
  | nil => simp [calculateTxBytesLoop]
  | cons tx rest ih =>
    have hrest : ∀ t ∈ rest, t.txType ≠ DepositTxType → t.encoded.isSome = true :=
      fun t ht => h t (List.mem_cons_of_mem _ ht)
    by_cases hd : tx.txType = DepositTxType
    · simp [calculateTxBytesLoop, hd, ih acc hrest]
    · have hs := h tx (List.mem_cons_self _ _) hd
      obtain ⟨txData, hdata⟩ := Option.isSome_iff_exists.mp hs
      simp [calculateTxBytesLoop, hd, hdata, ih _ hrest, encodedLen, add_assoc]

theorem calculateTxBytes_eq_spec (block : Block)
    (h : ∀ tx ∈ block.transactions, tx.txType ≠ DepositTxType → tx.encoded.isSome = true) :
    calculateTxBytes block = some (chargeableBytesSpec block) := by
  unfold calculateTxBytes chargeableBytesSpec chargeableTxs
  rw [calculateTxBytesLoop_eq _ _ h]
  simp

theorem chargeable_encodes_of_filter_eq (b b' : Block)
    (hf : chargeableTxs b' = chargeableTxs b)
    (h : ∀ tx ∈ b.transactions, tx.txType ≠ DepositTxType → tx.encoded.isSome = true) :
    ∀ tx ∈ b'.transactions, tx.txType ≠ DepositTxType → tx.encoded.isSome = true := by
  intro tx hmem hnd
  have h1 : tx ∈ chargeableTxs b' := by
    simp [chargeableTxs, hmem, hnd]
  rw [hf] at h1
  simp [chargeableTxs] at h1
  exact h tx h1.1 hnd

/-- C1: provided every non-deposit transaction of the block encodes without
error, `calculateTxBytes` returns exactly the sum of the encoded lengths of the
transactions whose type is not `DepositTxType`; hence every block with the same
non-deposit transactions (deposits added or removed, of any number and size)
gives the same result, and a block whose transactions are all deposits (or that
has none) gives 0. -/
theorem calculateTxBytes_sums_non_deposit (block : Block)
    (h : ∀ tx ∈ block.transactions, tx.txType ≠ DepositTxType → tx.encoded.isSome = true) :
    calculateTxBytes block = some (chargeableBytesSpec block) ∧
    (∀ block' : Block, chargeableTxs block' = chargeableTxs block →
      calculateTxBytes block' = calculateTxBytes block) ∧
    ((∀ tx ∈ block.transactions, tx.txType = DepositTxType) →
      calculateTxBytes block = some 0) := by
  refine ⟨calculateTxBytes_eq_spec block h, ?_, ?_⟩
  · intro block' hf
    rw [calculateTxBytes_eq_spec block h,
      calculateTxBytes_eq_spec block' (chargeable_encodes_of_filter_eq block block' hf h)]
    simp [chargeableBytesSpec, hf]
  · intro hall
    rw [calculateTxBytes_eq_spec block h]
    have : chargeableTxs block = [] := by
      simp only [chargeableTxs, List.filter_eq_nil_iff]
      intro tx htx
      simp [hall tx htx]
    simp [chargeableBytesSpec, this]

/-! ## The loop and the run relation -/

theorem mainLoop_exit {ω : Type} (env : Collaborators ω) (flags : Flags) (fuel : Nat)
    (v : Vars ω) (hc : ¬ v.totalProcessedTxSize < flags.minimumTxBytes) :
    mainLoop env flags fuel v =
      ([Event.loopCond v.i v.totalProcessedTxSize false], LoopEnd.exited v) := by
  cases fuel <;> simp [mainLoop, hc]

theorem main_eq_runOfLoop {ω : Type} (env : Collaborators ω) (flags : Flags) (fuel : Nat)
    (w0 : ω) :
    main env flags fuel w0 = runOfLoop env flags (mainLoop env flags fuel (initVars flags w0)) := by
  unfold main runOfLoop
  rfl

theorem runOfLoop_cons {ω : Type} (env : Collaborators ω) (flags : Flags) (es : List Event)
    (r : List Event × LoopEnd ω) :
    runOfLoop env flags (es ++ r.1, r.2) =
      { trace := es ++ (runOfLoop env flags r).trace,
        outcome := (runOfLoop env flags r).outcome } := by
  obtain ⟨t, e⟩ := r
  cases e <;> simp [runOfLoop]

theorem mainLoop_runFrom {ω : Type} (env : Collaborators ω) (flags : Flags) (fuel : Nat)
    (v : Vars ω) :
    RunFrom env flags v (runOfLoop env flags (mainLoop env flags fuel v)).trace
      (runOfLoop env flags (mainLoop env flags fuel v)).outcome := by
  induction fuel generalizing v with
  | zero =>
    by_cases hc : v.totalProcessedTxSize < flags.minimumTxBytes
    · simpa [mainLoop, hc, runOfLoop] using RunFrom.outOfFuel v hc
    · simpa [mainLoop, hc, runOfLoop] using RunFrom.exit v hc
  | succ fuel ih =>
    by_cases hc : v.totalProcessedTxSize < flags.minimumTxBytes
    · rcases hf : env.blockByNumber v.world v.i with ⟨w1, _ | blk⟩
      · simpa [mainLoop, hc, loopBody, hf, runOfLoop] using RunFrom.fetchErr v hc w1 hf
      · rcases ha : env.addBlock w1 blk with ⟨w2, _ | _⟩
        · have h := RunFrom.overflow v hc w1 w2 blk hf ha _ _ (ih _)
          simp only [mainLoop, hc, loopBody, hf, ha, if_true, overflowPrints]
          rw [show ∀ (x : Event) (l : List Event) (r : List Event × LoopEnd ω),
            (x :: l ++ r.1, r.2) = ((x :: l) ++ r.1, r.2) from fun _ _ _ => rfl, runOfLoop_cons]
          simpa using h
        · rcases hn : calculateTxBytes blk with _ | n
          · simpa [mainLoop, hc, loopBody, hf, ha, hn, runOfLoop] using
              RunFrom.encodeErr v hc w1 w2 blk hf ha hn
          · have h := RunFrom.added v hc w1 w2 blk n hf ha hn _ _ (ih _)
            simp only [mainLoop, hc, loopBody, hf, ha, hn, if_true]
            rw [show ∀ (x : Event) (l : List Event) (r : List Event × LoopEnd ω),
              (x :: l ++ r.1, r.2) = ((x :: l) ++ r.1, r.2) from fun _ _ _ => rfl, runOfLoop_cons]
            simpa using h
    · rw [mainLoop_exit env flags _ v hc]
      simpa [runOfLoop] using RunFrom.exit v hc

theorem main_runFrom {ω : Type} (env : Collaborators ω) (flags : Flags) (fuel : Nat) (w0 : ω) :
    RunFrom env flags (initVars flags w0) (main env flags fuel w0).trace
      (main env flags fuel w0).outcome := by
  rw [main_eq_runOfLoop]
  exact mainLoop_runFrom env flags fuel _

/-! ## Positions of a trace -/

theorem allSplits_nil {α : Type} (Q : List α → α → List α → Prop) : AllSplits Q [] := by
  intro pre e post h
  simp at h

theorem allSplits_cons {α : Type} (Q : List α → α → List α → Prop) (x : α) (t : List α) :
    AllSplits Q (x :: t) ↔ Q [] x t ∧ AllSplits (fun pre e post => Q (x :: pre) e post) t := by
  constructor
  · intro h
    exact ⟨h [] x t rfl, fun pre e post ht => h (x :: pre) e post (by simp [ht])⟩
  · rintro ⟨h0, h1⟩ pre e post ht
    cases pre with
    | nil =>
      simp only [List.nil_append, List.cons.injEq] at ht
      obtain ⟨rfl, rfl⟩ := ht
      exact h0
    | cons y pre =>
      simp only [List.cons_append, List.cons.injEq] at ht
      obtain ⟨rfl, rfl⟩ := ht
      exact h1 pre e post rfl

theorem AllSplits.mono {α : Type} {Q Q' : List α → α → List α → Prop} {t : List α}
    (h : AllSplits Q t) (hq : ∀ pre e post, Q pre e post → Q' pre e post) : AllSplits Q' t :=
  fun pre e post ht => hq pre e post (h pre e post ht)

/-! ## Fetch errors -/

theorem runFrom_no_write {ω : Type} {env : Collaborators ω} {flags : Flags} {v : Vars ω}
    {t : List Event} {out : Outcome} (h : RunFrom env flags v t out)
    (hout : ∀ rep, out ≠ Outcome.finished rep) : ∀ e ∈ t, e.isWrite = false := by
  induction h with
  | exit v hc => exact absurd rfl (hout _)
  | outOfFuel v hc => simp [Event.isWrite]
  | fetchErr v hc w1 hf => simp [Event.isWrite]
  | encodeErr v hc w1 w2 blk hf ha hn => simp [Event.isWrite]
  | added v hc w1 w2 blk n hf ha hn t out hrest ih =>
    simpa [Event.isWrite] using ih hout
  | overflow v hc w1 w2 blk hf ha t out hrest ih =>
    simpa [Event.isWrite] using ih hout

theorem runFrom_fetchErr_last {ω : Type} {env : Collaborators ω} {flags : Flags} {v : Vars ω}
    {t : List Event} {out : Outcome} (h : RunFrom env flags v t out) :
    AllSplits (fun _ e post => ∀ h, e = Event.blockByNumber h none →
      post = [] ∧ out = Outcome.fatal) t := by
  induction h with
  | exit v hc => simp [allSplits_cons, allSplits_nil, epilogue]
  | outOfFuel v hc => simp [allSplits_cons, allSplits_nil]
  | fetchErr v hc w1 hf => simp [allSplits_cons, allSplits_nil]
  | encodeErr v hc w1 w2 blk hf ha hn => simp [allSplits_cons, allSplits_nil]
  | added v hc w1 w2 blk n hf ha hn t out hrest ih =>
    simp only [allSplits_cons]
    exact ⟨by simp, by simp, by simp, ih⟩
  | overflow v hc w1 w2 blk hf ha t out hrest ih =>
    simp only [allSplits_cons]
    exact ⟨by simp, by simp, by simp, by simp, by simp, by simp, by simp, by simp, ih⟩

/-- C4: a failed fetch is the last call of the run: nothing follows it (no
`AddBlock`, `OutputFrames`, `Reset`, no further or repeated fetch), the process
ends with `log.Fatal`, and no record is written to the log.  When the very
first fetch (height `startBlock`) fails, the run is the first evaluation of the
loop condition, that fetch, and the fatal exit. -/
theorem fetch_error_aborts {ω : Type} (env : Collaborators ω) (flags : Flags) (w0 : ω) :
    (∀ (fuel : Nat) (pre post : List Event) (h : Int),
      (main env flags fuel w0).trace = pre ++ Event.blockByNumber h none :: post →
        post = [] ∧ (main env flags fuel w0).outcome = Outcome.fatal ∧
        ∀ e ∈ (main env flags fuel w0).trace, e.isWrite = false) ∧
    (∀ fuel : Nat, (env.blockByNumber w0 flags.startBlock).2 = none →
      0 < flags.minimumTxBytes →
        main env flags (fuel + 1) w0 =
          { trace := [Event.loopCond flags.startBlock 0 true,
              Event.blockByNumber flags.startBlock none],
            outcome := Outcome.fatal }) := by
  constructor
  · intro fuel pre post h ht
    have hr := main_runFrom env flags fuel w0
    obtain ⟨hpost, hout⟩ := runFrom_fetchErr_last hr pre _ post ht h rfl
    exact ⟨hpost, hout, runFrom_no_write hr (by simp [hout])⟩
  · intro fuel hf hmin
    rcases hb : env.blockByNumber w0 flags.startBlock with ⟨w1, r⟩
    rw [hb] at hf
    simp only at hf
    subst hf
    simp [main, mainLoop, initVars, hmin, loopBody, hb]

/-! ## Threshold 0 -/

/-- C6: with `minimumTxBytes = 0` the run evaluates the loop condition once,
finds it false, and goes straight to the report: no block is fetched, there is
no `AddBlock`, `OutputFrames` or `Reset` call, and the record written carries
total transaction bytes 0 and blocks processed 0.  This holds for every bound on
the iterations, 0 included. -/
theorem zero_threshold_reports_zero {ω : Type} (env : Collaborators ω) (flags : Flags)
    (fuel : Nat) (w0 : ω) (h0 : flags.minimumTxBytes = 0) :
    ∃ rep : Report,
      (main env flags fuel w0).outcome = Outcome.finished rep ∧
      rep.totalOutputtedTxSize = 0 ∧ rep.numBlockProcessed = 0 ∧
      rep.ratio = { num := env.outputBytes w0, den := 0 } ∧
      (main env flags fuel w0).trace =
        [ Event.loopCond flags.startBlock 0 false,
          Event.outputBytes (env.outputBytes w0),
          Event.println [PrintArg.str "total frames size: ", PrintArg.int (env.outputBytes w0)],
          Event.println [PrintArg.str "total tx size: ", PrintArg.int 0],
          Event.println [PrintArg.str "compression ratio: ",
            PrintArg.float { num := env.outputBytes w0, den := 0 }],
          Event.writeString rep,
          Event.close ] ∧
      ∀ e ∈ (main env flags fuel w0).trace, e.isCall = false := by
  have hc : ¬ (initVars flags w0).totalProcessedTxSize < flags.minimumTxBytes := by
    simp [initVars, h0]
  have hm : main env flags fuel w0 =
      { trace := Event.loopCond flags.startBlock 0 false :: epilogue env flags (initVars flags w0),
        outcome := Outcome.finished (mkReport env flags (initVars flags w0)) } := by
    rw [main_eq_runOfLoop, mainLoop_exit env flags fuel _ hc]
    simp [runOfLoop, initVars]
  rw [hm]
  refine ⟨mkReport env flags (initVars flags w0), rfl, rfl, rfl, rfl, ?_, ?_⟩
  · simp [epilogue, initVars]
  · simp [epilogue, Event.isCall]

/-! ## The loop condition -/

theorem runFrom_cond {ω : Type} {env : Collaborators ω} {flags : Flags} {v : Vars ω}
    {t : List Event} {out : Outcome} (h : RunFrom env flags v t out) :
    AllSplits (fun pre e post => ∀ i tot b, e = Event.loopCond i tot b →
      (tot < flags.minimumTxBytes → b = true ∧
        ((post = [] ∧ out = Outcome.outOfFuel) ∨
          ∃ res post', post = Event.blockByNumber i res :: post')) ∧
      (flags.minimumTxBytes ≤ tot → b = false ∧ (∃ rep, out = Outcome.finished rep) ∧
        (∀ e' ∈ post, e'.isCond = false ∧ e'.isCall = false) ∧
        ∀ i' tot' b', Event.loopCond i' tot' b' ∈ pre → tot' < flags.minimumTxBytes)) t := by
  induction h with
  | exit v hc =>
    simp only [allSplits_cons, epilogue]
    refine ⟨?_, by simp, by simp, by simp, by simp, by simp, by simp, allSplits_nil _⟩
    intro i tot b he
    simp only [Event.loopCond.injEq] at he
    obtain ⟨rfl, rfl, rfl⟩ := he
    refine ⟨fun hlt => absurd hlt hc, fun _ => ?_⟩
    simp [Event.isCond, Event.isCall]
  | outOfFuel v hc =>
    simp only [allSplits_cons]
    refine ⟨?_, allSplits_nil _⟩
    intro i tot b he
    simp only [Event.loopCond.injEq] at he
    obtain ⟨rfl, rfl, rfl⟩ := he
    refine ⟨fun _ => ?_, fun hge => absurd hc (not_lt.mpr hge)⟩
    simp
  | fetchErr v hc w1 hf =>
    simp only [allSplits_cons]
    refine ⟨?_, by simp, allSplits_nil _⟩
    intro i tot b he
    simp only [Event.loopCond.injEq] at he
    obtain ⟨rfl, rfl, rfl⟩ := he
    refine ⟨fun _ => ?_, fun hge => absurd hc (not_lt.mpr hge)⟩
    simp
  | encodeErr v hc w1 w2 blk hf ha hn =>
    simp only [allSplits_cons]
    refine ⟨?_, by simp, by simp, allSplits_nil _⟩
    intro i tot b he
    simp only [Event.loopCond.injEq] at he
    obtain ⟨rfl, rfl, rfl⟩ := he
    refine ⟨fun _ => ?_, fun hge => absurd hc (not_lt.mpr hge)⟩
    simp
  | added v hc w1 w2 blk n hf ha hn t out hrest ih =>
    simp only [allSplits_cons]
    refine ⟨?_, by simp, by simp, ih.mono ?_⟩
    · intro i tot b he
      simp only [Event.loopCond.injEq] at he
      obtain ⟨rfl, rfl, rfl⟩ := he
      exact ⟨fun _ => ⟨rfl, Or.inr ⟨_, _, rfl⟩⟩, fun hge => absurd hc (not_lt.mpr hge)⟩
    · intro pre e post hq
      show ∀ i tot b, e = Event.loopCond i tot b → _
      intro i tot b he
      obtain ⟨h1, h2⟩ := hq i tot b he
      refine ⟨h1, fun hge => ?_⟩
      obtain ⟨hb, hfin, hpost, hpre⟩ := h2 hge
      refine ⟨hb, hfin, hpost, ?_⟩
      intro i' tot' b' hmem
      simp only [List.mem_cons, Event.loopCond.injEq, reduceCtorEq, false_or] at hmem
      rcases hmem with ⟨_, rfl, _⟩ | hmem
      · exact hc
      · exact hpre i' tot' b' hmem
  | overflow v hc w1 w2 blk hf ha t out hrest ih =>
    simp only [allSplits_cons]
    refine ⟨?_, by simp, by simp, by simp, by simp, by simp, by simp, by simp, ih.mono ?_⟩
    · intro i tot b he
      simp only [Event.loopCond.injEq] at he
      obtain ⟨rfl, rfl, rfl⟩ := he
      exact ⟨fun _ => ⟨rfl, Or.inr ⟨_, _, rfl⟩⟩, fun hge => absurd hc (not_lt.mpr hge)⟩
    · intro pre e post hq
      show ∀ i tot b, e = Event.loopCond i tot b → _
      intro i tot b he
      obtain ⟨h1, h2⟩ := hq i tot b he
      refine ⟨h1, fun hge => ?_⟩
      obtain ⟨hb, hfin, hpost, hpre⟩ := h2 hge
      refine ⟨hb, hfin, hpost, ?_⟩
      intro i' tot' b' hmem
      simp only [List.mem_cons, Event.loopCond.injEq, reduceCtorEq, false_or] at hmem
      rcases hmem with ⟨_, rfl, _⟩ | hmem
      · exact hc
      · exact hpre i' tot' b' hmem

theorem runFrom_finished_split {ω : Type} {env : Collaborators ω} {flags : Flags} {v : Vars ω}
    {t : List Event} {out : Outcome} (h : RunFrom env flags v t out) :
    ∀ rep, out = Outcome.finished rep →
      ∃ pre i tot post, t = pre ++ Event.loopCond i tot false :: post ∧
        flags.minimumTxBytes ≤ tot := by
  induction h with
  | exit v hc => exact fun rep _ => ⟨[], _, _, _, rfl, not_lt.mp hc⟩
  | outOfFuel v hc => intro rep h; cases h
  | fetchErr v hc w1 hf => intro rep h; cases h
  | encodeErr v hc w1 w2 blk hf ha hn => intro rep h; cases h
  | added v hc w1 w2 blk n hf ha hn t out hrest ih =>
    intro rep h
    obtain ⟨pre, i, tot, post, rfl, hge⟩ := ih rep h
    exact ⟨_ :: _ :: _ :: pre, i, tot, post, rfl, hge⟩
  | overflow v hc w1 w2 blk hf ha t out hrest ih =>
    intro rep h
    obtain ⟨pre, i, tot, post, rfl, hge⟩ := ih rep h
    exact ⟨_ :: _ :: _ :: _ :: _ :: _ :: _ :: _ :: pre, i, tot, post, rfl, hge⟩

/-- C2: for every start height, threshold, block source and channel, and at
every evaluation of the loop condition in a run: if `totalProcessedTxSize` is
below `minimumTxBytes` the condition holds and the loop goes on with the fetch
of block `i` (or the iteration bound is reached there); if it is at least
`minimumTxBytes` the condition fails, the run finishes normally, no further
evaluation or collaborator call of the loop follows, and at every earlier
evaluation the counter was below the threshold.  A run that finishes normally
has such a final evaluation. -/
theorem loop_stops_exactly_at_threshold {ω : Type} (env : Collaborators ω) (flags : Flags)
    (fuel : Nat) (w0 : ω) :
    (∀ (pre post : List Event) (i tot : Int) (b : Bool),
      (main env flags fuel w0).trace = pre ++ Event.loopCond i tot b :: post →
        (tot < flags.minimumTxBytes → b = true ∧
          ((post = [] ∧ (main env flags fuel w0).outcome = Outcome.outOfFuel) ∨
            ∃ res post', post = Event.blockByNumber i res :: post')) ∧
        (flags.minimumTxBytes ≤ tot → b = false ∧
          (∃ rep, (main env flags fuel w0).outcome = Outcome.finished rep) ∧
          (∀ e' ∈ post, e'.isCond = false ∧ e'.isCall = false) ∧
          ∀ i' tot' b', Event.loopCond i' tot' b' ∈ pre → tot' < flags.minimumTxBytes)) ∧
    (∀ rep, (main env flags fuel w0).outcome = Outcome.finished rep →
      ∃ pre i tot post,
        (main env flags fuel w0).trace = pre ++ Event.loopCond i tot false :: post ∧
        flags.minimumTxBytes ≤ tot) := by
  have hr := main_runFrom env flags fuel w0
  exact ⟨fun pre post i tot b ht => runFrom_cond hr pre _ post ht i tot b rfl,
    runFrom_finished_split hr⟩

/-! ## Overflow: retry at the same height -/

theorem consecutiveFrom_succ (s : Int) (n : Nat) :
    consecutiveFrom s (n + 1) = s :: consecutiveFrom (s + 1) n := rfl

theorem runFrom_head {ω : Type} {env : Collaborators ω} {flags : Flags} {v : Vars ω}
    {t : List Event} {out : Outcome} (h : RunFrom env flags v t out)
    (hc : v.totalProcessedTxSize < flags.minimumTxBytes) :
    t = [Event.loopCond v.i v.totalProcessedTxSize true] ∨
    t = [Event.loopCond v.i v.totalProcessedTxSize true, Event.blockByNumber v.i none] ∨
    ∃ blk ok rest, t = Event.loopCond v.i v.totalProcessedTxSize true ::
      Event.blockByNumber v.i (some blk) :: Event.addBlock v.i blk ok :: rest := by
  cases h with
  | exit _ hc' => exact absurd hc hc'
  | outOfFuel _ _ => exact Or.inl rfl
  | fetchErr _ _ w1 hf => exact Or.inr (Or.inl rfl)
  | encodeErr _ _ w1 w2 blk hf ha hn => exact Or.inr (Or.inr ⟨_, _, _, rfl⟩)
  | added _ _ w1 w2 blk n hf ha hn t out hrest => exact Or.inr (Or.inr ⟨_, _, _, rfl⟩)
  | overflow _ _ w1 w2 blk hf ha t out hrest => exact Or.inr (Or.inr ⟨_, _, _, rfl⟩)

theorem runFrom_overflow_retry {ω : Type} {env : Collaborators ω} {flags : Flags} {v : Vars ω}
    {t : List Event} {out : Outcome} (h : RunFrom env flags v t out) :
    AllSplits (fun _ e post => ∀ H blk, e = Event.addBlock H blk false →
      ∃ tot post', post = overflowPrints flags.startBlock H tot ++
          Event.outputFrames :: Event.reset :: post' ∧
        (post' = [Event.loopCond H tot true] ∨
         post' = [Event.loopCond H tot true, Event.blockByNumber H none] ∨
         ∃ blk' ok rest, post' = Event.loopCond H tot true ::
           Event.blockByNumber H (some blk') :: Event.addBlock H blk' ok :: rest)) t := by
  induction h with
  | exit v hc => simp [allSplits_cons, allSplits_nil, epilogue]
  | outOfFuel v hc => simp [allSplits_cons, allSplits_nil]
  | fetchErr v hc w1 hf => simp [allSplits_cons, allSplits_nil]
  | encodeErr v hc w1 w2 blk hf ha hn => simp [allSplits_cons, allSplits_nil]
  | added v hc w1 w2 blk n hf ha hn t out hrest ih =>
    simp only [allSplits_cons]
    exact ⟨by simp, by simp, by simp, ih⟩
  | overflow v hc w1 w2 blk hf ha t out hrest ih =>
    simp only [allSplits_cons]
    refine ⟨by simp, by simp, ?_, by simp, by simp, by simp, by simp, by simp, ih⟩
    intro H blk' he
    simp only [Event.addBlock.injEq, and_true] at he
    obtain ⟨rfl, rfl⟩ := he
    have hhead := runFrom_head hrest hc
    exact ⟨v.totalProcessedTxSize, t, rfl, hhead⟩

theorem addedHeights_cons_added (h : Int) (blk : Block) (t : List Event) :
    addedHeights (Event.addBlock h blk true :: t) = h :: addedHeights t := by
  simp [addedHeights]

theorem runFrom_addedHeights {ω : Type} {env : Collaborators ω} {flags : Flags} {v : Vars ω}
    {t : List Event} {out : Outcome} (h : RunFrom env flags v t out) :
    addedHeights t = consecutiveFrom v.i (addedHeights t).length := by
  induction h with
  | exit v hc => simp [addedHeights, epilogue, consecutiveFrom]
  | outOfFuel v hc => simp [addedHeights, consecutiveFrom]
  | fetchErr v hc w1 hf => simp [addedHeights, consecutiveFrom]
  | encodeErr v hc w1 w2 blk hf ha hn => simp [addedHeights, consecutiveFrom]
  | added v hc w1 w2 blk n hf ha hn t out hrest ih =>
    have h1 : addedHeights (Event.loopCond v.i v.totalProcessedTxSize true ::
        Event.blockByNumber v.i (some blk) :: Event.addBlock v.i blk true :: t) =
        v.i :: addedHeights t := by
      simp [addedHeights]
    rw [h1, List.length_cons, consecutiveFrom_succ]
    exact congrArg _ ih
  | overflow v hc w1 w2 blk hf ha t out hrest ih =>
    have h1 : addedHeights (Event.loopCond v.i v.totalProcessedTxSize true ::
        Event.blockByNumber v.i (some blk) :: Event.addBlock v.i blk false ::
        Event.println [PrintArg.str "Channel full, outputting frames"] ::
        Event.println [PrintArg.str "Processed tx size ", PrintArg.int v.totalProcessedTxSize] ::
        Event.println [PrintArg.str "Number of block processed ",
          PrintArg.int (v.i - flags.startBlock)] ::
        Event.outputFrames :: Event.reset :: t) = addedHeights t := by
      simp [addedHeights]
    rw [h1]
    exact ih

/-- C3: whenever `AddBlock` returns an error for the block fetched at height
`H`, the calls that follow are the three progress prints, `OutputFrames`, then
`Reset`, then the loop condition is evaluated again with `i = H` and found
true, and the run goes on with the fetch of height `H` and, when that fetch
succeeds, with `AddBlock` of the block fetched at height `H` (the run may also
reach its iteration bound, or abort on that fetch).  Hence, over any run, the
heights of the successful `AddBlock` calls are `startBlock`, `startBlock+1`,
... in order. -/
theorem overflow_retries_same_height {ω : Type} (env : Collaborators ω) (flags : Flags)
    (fuel : Nat) (w0 : ω) :
    (∀ (pre post : List Event) (H : Int) (blk : Block),
      (main env flags fuel w0).trace = pre ++ Event.addBlock H blk false :: post →
        ∃ tot post', post = overflowPrints flags.startBlock H tot ++
            Event.outputFrames :: Event.reset :: post' ∧
          (post' = [Event.loopCond H tot true] ∨
           post' = [Event.loopCond H tot true, Event.blockByNumber H none] ∨
           ∃ blk' ok rest, post' = Event.loopCond H tot true ::
             Event.blockByNumber H (some blk') :: Event.addBlock H blk' ok :: rest)) ∧
    addedHeights (main env flags fuel w0).trace =
      consecutiveFrom flags.startBlock (addedHeights (main env flags fuel w0).trace).length := by
  have hr := main_runFrom env flags fuel w0
  exact ⟨fun pre post H blk ht => runFrom_overflow_retry hr pre _ post ht H blk rfl,
    runFrom_addedHeights hr⟩

/-! ## The processed-bytes counter -/

theorem runFrom_counter {ω : Type} {env : Collaborators ω} {flags : Flags} {v : Vars ω}
    {t : List Event} {out : Outcome} (h : RunFrom env flags v t out) :
    AllSplits (fun pre e _ => ∀ i tot b, e = Event.loopCond i tot b →
      (∀ blk ∈ addedBlocks pre, (calculateTxBytes blk).isSome = true) ∧
      tot = v.totalProcessedTxSize + sumTxBytes (addedBlocks pre) ∧
      i = v.i + ((addedBlocks pre).length : Int) ∧
      addedHeights pre = consecutiveFrom v.i (addedBlocks pre).length) t := by
  induction h with
  | exit v hc =>
    simp [allSplits_cons, allSplits_nil, epilogue, addedBlocks, addedHeights, sumTxBytes,
      consecutiveFrom]
  | outOfFuel v hc =>
    simp [allSplits_cons, allSplits_nil, addedBlocks, addedHeights, sumTxBytes, consecutiveFrom]
  | fetchErr v hc w1 hf =>
    simp [allSplits_cons, allSplits_nil, addedBlocks, addedHeights, sumTxBytes, consecutiveFrom]
  | encodeErr v hc w1 w2 blk hf ha hn =>
    simp [allSplits_cons, allSplits_nil, addedBlocks, addedHeights, sumTxBytes, consecutiveFrom]
  | added v hc w1 w2 blk n hf ha hn t out hrest ih =>
    simp only [allSplits_cons]
    refine ⟨?_, by simp, by simp, ih.mono ?_⟩
    · simp [addedBlocks, addedHeights, sumTxBytes, consecutiveFrom]
    · intro pre e post hq
      show ∀ i tot b, e = Event.loopCond i tot b → _
      intro i tot b he
      obtain ⟨h1, h2, h3, h4⟩ := hq i tot b he
      have hb : addedBlocks (Event.loopCond v.i v.totalProcessedTxSize true ::
          Event.blockByNumber v.i (some blk) :: Event.addBlock v.i blk true :: pre) =
          blk :: addedBlocks pre := by
        simp [addedBlocks]
      have hh : addedHeights (Event.loopCond v.i v.totalProcessedTxSize true ::
          Event.blockByNumber v.i (some blk) :: Event.addBlock v.i blk true :: pre) =
          v.i :: addedHeights pre := by
        simp [addedHeights]
      rw [hb, hh]
      refine ⟨?_, ?_, ?_, ?_⟩
      · intro b' hb'
        rcases List.mem_cons.mp hb' with rfl | hb'
        · simp [hn]
        · exact h1 b' hb'
      · rw [h2]
        simp only [sumTxBytes, List.map_cons, List.sum_cons, hn, Option.getD_some]
        ring
      · rw [h3]
        simp only [List.length_cons, Nat.cast_succ]
        ring
      · rw [h4, List.length_cons, consecutiveFrom_succ]
  | overflow v hc w1 w2 blk hf ha t out hrest ih =>
    simp only [allSplits_cons]
    refine ⟨?_, by simp, by simp, by simp, by simp, by simp, by simp, by simp, ih.mono ?_⟩
    · simp [addedBlocks, addedHeights, sumTxBytes, consecutiveFrom]
    · intro pre e post hq
      show ∀ i tot b, e = Event.loopCond i tot b → _
      intro i tot b he
      obtain ⟨h1, h2, h3, h4⟩ := hq i tot b he
      have hb : addedBlocks (Event.loopCond v.i v.totalProcessedTxSize true ::
          Event.blockByNumber v.i (some blk) :: Event.addBlock v.i blk false ::
          Event.println [PrintArg.str "Channel full, outputting frames"] ::
          Event.println [PrintArg.str "Processed tx size ",
            PrintArg.int v.totalProcessedTxSize] ::
          Event.println [PrintArg.str "Number of block processed ",
            PrintArg.int (v.i - flags.startBlock)] ::
          Event.outputFrames :: Event.reset :: pre) = addedBlocks pre := by
        simp [addedBlocks]
      have hh : addedHeights (Event.loopCond v.i v.totalProcessedTxSize true ::
          Event.blockByNumber v.i (some blk) :: Event.addBlock v.i blk false ::
          Event.println [PrintArg.str "Channel full, outputting frames"] ::
          Event.println [PrintArg.str "Processed tx size ",
            PrintArg.int v.totalProcessedTxSize] ::
          Event.println [PrintArg.str "Number of block processed ",
            PrintArg.int (v.i - flags.startBlock)] ::
          Event.outputFrames :: Event.reset :: pre) = addedHeights pre := by
        simp [addedHeights]
      rw [hb, hh]
      exact ⟨h1, h2, h3, h4⟩

theorem loopBody_next {ω : Type} (env : Collaborators ω) (flags : Flags) (v v' : Vars ω)
    (es : List Event) (h : loopBody env flags v = (es, BodyEnd.next v')) :
    (∃ blk n, es = [Event.blockByNumber v.i (some blk), Event.addBlock v.i blk true] ∧
      calculateTxBytes blk = some n ∧
      v'.totalProcessedTxSize = v.totalProcessedTxSize + n ∧ v'.i = v.i + 1) ∨
    (∃ blk, es = [Event.blockByNumber v.i (some blk), Event.addBlock v.i blk false] ++
        overflowPrints flags.startBlock v.i v.totalProcessedTxSize ++
        [Event.outputFrames, Event.reset] ∧
      v'.totalProcessedTxSize = v.totalProcessedTxSize ∧ v'.i = v.i) := by
  unfold loopBody at h
  rcases hf : env.blockByNumber v.world v.i with ⟨w1, _ | blk⟩
  · simp [hf] at h
  · rcases ha : env.addBlock w1 blk with ⟨w2, _ | _⟩
    · simp only [hf, ha, Prod.mk.injEq, BodyEnd.next.injEq] at h
      obtain ⟨rfl, rfl⟩ := h
      exact Or.inr ⟨blk, rfl, rfl, by simp⟩
    · rcases hn : calculateTxBytes blk with _ | n
      · simp [hf, ha, hn] at h
      · simp only [hf, ha, hn, Prod.mk.injEq, BodyEnd.next.injEq] at h
        obtain ⟨rfl, rfl⟩ := h
        exact Or.inl ⟨blk, n, rfl, hn, rfl, rfl⟩

/-- C8: at every evaluation of the loop condition, with `i` and
`totalProcessedTxSize` the values it reads, every block successfully added so
far has been sized by `calculateTxBytes`, `totalProcessedTxSize` is the sum of
`calculateTxBytes` over those blocks (all epochs together), their heights are
`startBlock .. i-1`, and `i - startBlock` is their number.  One execution of
the loop body either adds a block, increasing the counter by exactly
`calculateTxBytes` of that block and `i` by one, or overflows (flush and reset),
leaving both unchanged. -/
theorem processed_counter_is_sum_of_added {ω : Type} (env : Collaborators ω) (flags : Flags)
    (fuel : Nat) (w0 : ω) :
    (∀ (pre post : List Event) (i tot : Int) (b : Bool),
      (main env flags fuel w0).trace = pre ++ Event.loopCond i tot b :: post →
        (∀ blk ∈ addedBlocks pre, (calculateTxBytes blk).isSome = true) ∧
        tot = sumTxBytes (addedBlocks pre) ∧
        i = flags.startBlock + ((addedBlocks pre).length : Int) ∧
        addedHeights pre = consecutiveFrom flags.startBlock (addedBlocks pre).length) ∧
    (∀ (v v' : Vars ω) (es : List Event), loopBody env flags v = (es, BodyEnd.next v') →
      (∃ blk n, es = [Event.blockByNumber v.i (some blk), Event.addBlock v.i blk true] ∧
        calculateTxBytes blk = some n ∧
        v'.totalProcessedTxSize = v.totalProcessedTxSize + n ∧ v'.i = v.i + 1) ∨
      (∃ blk, es = [Event.blockByNumber v.i (some blk), Event.addBlock v.i blk false] ++
          overflowPrints flags.startBlock v.i v.totalProcessedTxSize ++
          [Event.outputFrames, Event.reset] ∧
        v'.totalProcessedTxSize = v.totalProcessedTxSize ∧ v'.i = v.i)) := by
  refine ⟨?_, loopBody_next env flags⟩
  intro pre post i tot b ht
  have hr := main_runFrom env flags fuel w0
  have h := runFrom_counter hr pre _ post ht i tot b rfl
  simpa [initVars] using h

/-! ## The report -/

theorem main_finished {ω : Type} (env : Collaborators ω) (flags : Flags) (fuel : Nat) (w0 : ω)
    (rep : Report) (hfin : (main env flags fuel w0).outcome = Outcome.finished rep) :
    ∃ es vf, mainLoop env flags fuel (initVars flags w0) = (es, LoopEnd.exited vf) ∧
      rep = mkReport env flags vf ∧
      (main env flags fuel w0).trace = es ++ epilogue env flags vf := by
  rw [main_eq_runOfLoop] at hfin ⊢
  rcases hm : mainLoop env flags fuel (initVars flags w0) with ⟨es, vf | _ | _ | _⟩
  · rw [hm] at hfin
    simp only [runOfLoop, Outcome.finished.injEq] at hfin
    exact ⟨es, vf, rfl, hfin.symm, rfl⟩
  · rw [hm] at hfin; simp [runOfLoop] at hfin
  · rw [hm] at hfin; simp [runOfLoop] at hfin
  · rw [hm] at hfin; simp [runOfLoop] at hfin

theorem mainLoop_exited {ω : Type} (env : Collaborators ω) (flags : Flags) (fuel : Nat)
    (v vf : Vars ω) (t : List Event) (h : mainLoop env flags fuel v = (t, LoopEnd.exited vf)) :
    flags.minimumTxBytes ≤ vf.totalProcessedTxSize ∧
      ∃ es, t = es ++ [Event.loopCond vf.i vf.totalProcessedTxSize false] := by
  induction fuel generalizing v t with
  | zero =>
    by_cases hc : v.totalProcessedTxSize < flags.minimumTxBytes
    · simp [mainLoop, hc] at h
    · simp only [mainLoop, hc, if_false, Prod.mk.injEq, LoopEnd.exited.injEq] at h
      obtain ⟨rfl, rfl⟩ := h
      exact ⟨not_lt.mp hc, [], rfl⟩
  | succ fuel ih =>
    by_cases hc : v.totalProcessedTxSize < flags.minimumTxBytes
    · simp only [mainLoop, hc, if_true] at h
      rcases hb : loopBody env flags v with ⟨es, v' | _ | _⟩
      · rw [hb] at h
        simp only [Prod.mk.injEq] at h
        obtain ⟨rfl, h2⟩ := h
        obtain ⟨hge, es', hes'⟩ := ih v' _ (Prod.ext rfl h2)
        refine ⟨hge, Event.loopCond v.i v.totalProcessedTxSize true :: es ++ es', ?_⟩
        simp [hes']
      · rw [hb] at h; simp at h
      · rw [hb] at h; simp at h
    · rw [mainLoop_exit env flags _ v hc] at h
      simp only [Prod.mk.injEq, LoopEnd.exited.injEq] at h
      obtain ⟨rfl, rfl⟩ := h
      exact ⟨not_lt.mp hc, [], rfl⟩

theorem runFrom_outputBytes {ω : Type} {env : Collaborators ω} {flags : Flags} {v : Vars ω}
    {t : List Event} {out : Outcome} (h : RunFrom env flags v t out) :
    ∀ rep, out = Outcome.finished rep →
      t.filter Event.isOutputBytes = [Event.outputBytes rep.totalFrameSize] := by
  induction h with
  | exit v hc =>
    intro rep h
    simp only [Outcome.finished.injEq] at h
    subst h
    simp [epilogue, mkReport, Event.isOutputBytes]
  | outOfFuel v hc => intro rep h; cases h
  | fetchErr v hc w1 hf => intro rep h; cases h
  | encodeErr v hc w1 w2 blk hf ha hn => intro rep h; cases h
  | added v hc w1 w2 blk n hf ha hn t out hrest ih =>
    intro rep h
    simpa [Event.isOutputBytes] using ih rep h
  | overflow v hc w1 w2 blk hf ha t out hrest ih =>
    intro rep h
    simpa [Event.isOutputBytes] using ih rep h

theorem runFrom_flush_reset {ω : Type} {env : Collaborators ω} {flags : Flags} {v : Vars ω}
    {t : List Event} {out : Outcome} (h : RunFrom env flags v t out) :
    AllSplits (fun _ e post => e = Event.outputFrames → ∃ post', post = Event.reset :: post')
      t := by
  induction h with
  | exit v hc => simp [allSplits_cons, allSplits_nil, epilogue]
  | outOfFuel v hc => simp [allSplits_cons, allSplits_nil]
  | fetchErr v hc w1 hf => simp [allSplits_cons, allSplits_nil]
  | encodeErr v hc w1 w2 blk hf ha hn => simp [allSplits_cons, allSplits_nil]
  | added v hc w1 w2 blk n hf ha hn t out hrest ih =>
    simp only [allSplits_cons]
    exact ⟨by simp, by simp, by simp, ih⟩
  | overflow v hc w1 w2 blk hf ha t out hrest ih =>
    simp only [allSplits_cons]
    exact ⟨by simp, by simp, by simp, by simp, by simp, by simp, by simp, by simp, ih⟩

theorem runFrom_snapshot {ω : Type} {env : Collaborators ω} {flags : Flags} {v : Vars ω}
    {t : List Event} {out : Outcome} (h : RunFrom env flags v t out) :
    ∀ rep, out = Outcome.finished rep →
      ((∀ e ∈ t, e.isAddErr = false) →
        rep.totalOutputtedTxSize = v.totalOutputtedTxSize ∧
        rep.numBlockProcessed = v.numBlockProcessed) ∧
      AllSplits (fun _ e post => ∀ i tot blk post', e = Event.loopCond i tot true →
        post = Event.blockByNumber i (some blk) :: Event.addBlock i blk false :: post' →
        (∀ e' ∈ post', e'.isAddErr = false) →
          rep.totalOutputtedTxSize = tot ∧ rep.numBlockProcessed = i - flags.startBlock) t := by
  induction h with
  | exit v hc =>
    intro rep h
    simp only [Outcome.finished.injEq] at h
    subst h
    refine ⟨fun _ => ⟨rfl, rfl⟩, ?_⟩
    simp [allSplits_cons, allSplits_nil, epilogue]
  | outOfFuel v hc => intro rep h; cases h
  | fetchErr v hc w1 hf => intro rep h; cases h
  | encodeErr v hc w1 w2 blk hf ha hn => intro rep h; cases h
  | added v hc w1 w2 blk n hf ha hn t out hrest ih =>
    intro rep h
    obtain ⟨ih1, ih2⟩ := ih rep h
    refine ⟨fun hno => ih1 (fun e he => hno e (by simp [he])), ?_⟩
    simp only [allSplits_cons]
    exact ⟨by simp, by simp, by simp, ih2⟩
  | overflow v hc w1 w2 blk hf ha t out hrest ih =>
    intro rep h
    obtain ⟨ih1, ih2⟩ := ih rep h
    refine ⟨fun hno => ?_, ?_⟩
    · have := hno (Event.addBlock v.i blk false) (by simp)
      simp [Event.isAddErr] at this
    · simp only [allSplits_cons]
      refine ⟨?_, by simp, by simp, by simp, by simp, by simp, by simp, by simp, ih2⟩
      intro i tot blk' post' he hpost hno
      simp only [Event.loopCond.injEq, and_true] at he
      obtain ⟨rfl, rfl⟩ := he
      simp only [List.cons.injEq, true_and, Event.addBlock.injEq, and_true,
        Event.blockByNumber.injEq, Option.some.injEq] at hpost
      obtain ⟨_, _, rfl⟩ := hpost
      exact ih1 (fun e he => hno e (by simp [he]))

theorem runFrom_outputted_lt {ω : Type} {env : Collaborators ω} {flags : Flags} {v : Vars ω}
    {t : List Event} {out : Outcome} (h : RunFrom env flags v t out) :
    ∀ rep, out = Outcome.finished rep → v.totalOutputtedTxSize < flags.minimumTxBytes →
      rep.totalOutputtedTxSize < flags.minimumTxBytes := by
  induction h with
  | exit v hc =>
    intro rep h hlt
    simp only [Outcome.finished.injEq] at h
    subst h
    exact hlt
  | outOfFuel v hc => intro rep h; cases h
  | fetchErr v hc w1 hf => intro rep h; cases h
  | encodeErr v hc w1 w2 blk hf ha hn => intro rep h; cases h
  | added v hc w1 w2 blk n hf ha hn t out hrest ih => exact fun rep h hlt => ih rep h hlt
  | overflow v hc w1 w2 blk hf ha t out hrest ih => exact fun rep h _ => ih rep h hc

/-! ## Scenario A -/

theorem calculateTxBytes_blockA1 : calculateTxBytes blockA1 = some 40 := by decide

theorem calculateTxBytes_blockA2 : calculateTxBytes blockA2 = some 40 := by decide

theorem calculateTxBytes_blockA3 : calculateTxBytes blockA3 = some 40 := by decide

theorem mainLoop_step {ω : Type} (env : Collaborators ω) (flags : Flags) (fuel : Nat)
    (v v' : Vars ω) (es : List Event) (hc : v.totalProcessedTxSize < flags.minimumTxBytes)
    (hb : loopBody env flags v = (es, BodyEnd.next v')) :
    mainLoop env flags (fuel + 1) v =
      (Event.loopCond v.i v.totalProcessedTxSize true :: es ++ (mainLoop env flags fuel v').1,
        (mainLoop env flags fuel v').2) := by
  simp [mainLoop, hc, hb]

theorem scenarioA_loop (s T : Int) (fuel : Nat) (h1 : 80 < T) (h2 : T ≤ 120) :
    mainLoop (envA s) (flagsA s T) (fuel + 4) (initVars (flagsA s T) ⟨0, 0⟩) =
      ((traceA s T).take 18, LoopEnd.exited (finalVarsA s)) := by
  have b1 : loopBody (envA s) (flagsA s T) ⟨⟨0, 0⟩, s, 0, 0, 0⟩ =
      ([Event.blockByNumber s (some blockA1), Event.addBlock s blockA1 true],
        BodyEnd.next ⟨⟨40, 0⟩, s + 1, 0, 40, 0⟩) := by
    simp [loopBody, envA, calculateTxBytes_blockA1]
  have b2 : loopBody (envA s) (flagsA s T) ⟨⟨40, 0⟩, s + 1, 0, 40, 0⟩ =
      ([Event.blockByNumber (s + 1) (some blockA2), Event.addBlock (s + 1) blockA2 true],
        BodyEnd.next ⟨⟨80, 0⟩, s + 2, 0, 80, 0⟩) := by
    simp [loopBody, envA, calculateTxBytes_blockA2]
    ring
  have b3 : loopBody (envA s) (flagsA s T) ⟨⟨80, 0⟩, s + 2, 0, 80, 0⟩ =
      ([Event.blockByNumber (s + 2) (some blockA3), Event.addBlock (s + 2) blockA3 false,
          Event.println [PrintArg.str "Channel full, outputting frames"],
          Event.println [PrintArg.str "Processed tx size ", PrintArg.int 80],
          Event.println [PrintArg.str "Number of block processed ", PrintArg.int 2],
          Event.outputFrames, Event.reset],
        BodyEnd.next ⟨⟨0, 80⟩, s + 2, 80, 80, 2⟩) := by
    simp [loopBody, envA, flagsA, calculateTxBytes_blockA3, overflowPrints]
  have b4 : loopBody (envA s) (flagsA s T) ⟨⟨0, 80⟩, s + 2, 80, 80, 2⟩ =
      ([Event.blockByNumber (s + 2) (some blockA3), Event.addBlock (s + 2) blockA3 true],
        BodyEnd.next (finalVarsA s)) := by
    simp [loopBody, envA, calculateTxBytes_blockA3, finalVarsA]
    ring
  have e4 := mainLoop_exit (envA s) (flagsA s T) fuel (finalVarsA s)
    (by simp only [finalVarsA, flagsA]; omega)
  have e3 := mainLoop_step (envA s) (flagsA s T) fuel _ _ _
    (by simp only [flagsA]; omega) b4
  have e2 := mainLoop_step (envA s) (flagsA s T) (fuel + 1) _ _ _
    (by simp only [flagsA]; omega) b3
  have e1 := mainLoop_step (envA s) (flagsA s T) (fuel + 2) _ _ _
    (by simp only [flagsA]; omega) b2
  have e0 := mainLoop_step (envA s) (flagsA s T) (fuel + 3) _ _ _
    (by simp only [flagsA]; omega) b1
  rw [e4] at e3
  rw [e3] at e2
  rw [e2] at e1
  rw [e1] at e0
  have hinit : initVars (flagsA s T) (⟨0, 0⟩ : WorldA) = ⟨⟨0, 0⟩, s, 0, 0, 0⟩ := rfl
  rw [hinit, e0]
  simp [traceA, finalVarsA]

theorem scenarioA_main (s T : Int) (fuel : Nat) (h1 : 80 < T) (h2 : T ≤ 120) :
    main (envA s) (flagsA s T) (fuel + 4) ⟨0, 0⟩ =
      { trace := traceA s T, outcome := Outcome.finished (reportA s T) } := by
  rw [main_eq_runOfLoop, scenarioA_loop s T fuel h1 h2]
  simp [runOfLoop, traceA, epilogue, mkReport, finalVarsA, reportA, envA, flagsA]

/-- C5 (amended): in scenario A (blocks of chargeable sizes 40, 40, 40 at the
heights `s`, `s+1`, `s+2`, a channel taking at most 100 chargeable bytes per
epoch, a threshold with `80 < T ≤ 120`) the run adds the first two blocks,
overflows on the third, retries the third against the reset channel with
success, leaves the loop with 120 processed bytes, and makes exactly one
`OutputFrames` call, at the overflow; no flush follows the retry. -/
theorem scenarioA_one_flush (s T : Int) (fuel : Nat) (h1 : 80 < T) (h2 : T ≤ 120) :
    (calculateTxBytes blockA1 = some 40 ∧ calculateTxBytes blockA2 = some 40 ∧
      calculateTxBytes blockA3 = some 40) ∧
    main (envA s) (flagsA s T) (fuel + 4) ⟨0, 0⟩ =
      { trace := traceA s T, outcome := Outcome.finished (reportA s T) } ∧
    mainLoop (envA s) (flagsA s T) (fuel + 4) (initVars (flagsA s T) ⟨0, 0⟩) =
      ((traceA s T).take 18, LoopEnd.exited (finalVarsA s)) ∧
    (finalVarsA s).totalProcessedTxSize = 120 ∧
    (traceA s T).filter Event.isAdd =
      [Event.addBlock s blockA1 true, Event.addBlock (s + 1) blockA2 true,
        Event.addBlock (s + 2) blockA3 false, Event.addBlock (s + 2) blockA3 true] ∧
    ((traceA s T).filter Event.isOutputFrames).length = 1 := by
  refine ⟨⟨calculateTxBytes_blockA1, calculateTxBytes_blockA2, calculateTxBytes_blockA3⟩,
    scenarioA_main s T fuel h1 h2, scenarioA_loop s T fuel h1 h2, rfl, ?_, ?_⟩
  · simp [traceA, Event.isAdd]
  · simp [traceA, Event.isOutputFrames]

theorem scenarioA_one_flush_witness :
    ((80 : Int) < 120 ∧ (120 : Int) ≤ 120) ∧
    main (envA 0) (flagsA 0 120) 4 ⟨0, 0⟩ =
      { trace := traceA 0 120, outcome := Outcome.finished (reportA 0 120) } ∧
    ((traceA 0 120).filter Event.isOutputFrames).length = 1 :=
  ⟨⟨by decide, by decide⟩,
    (scenarioA_one_flush 0 120 0 (by decide) (by decide)).2.1,
    (scenarioA_one_flush 0 120 0 (by decide) (by decide)).2.2.2.2.2⟩

/-- C5 as stated fails: in scenario A with start height 0 and threshold 120
the run finishes normally after adding the three blocks, and the number of
`OutputFrames` calls in it is 1, not 2. -/
theorem scenarioA_not_two_flushes :
    (main (envA 0) (flagsA 0 120) 4 ⟨0, 0⟩).outcome = Outcome.finished (reportA 0 120) ∧
    addedBlocks (main (envA 0) (flagsA 0 120) 4 ⟨0, 0⟩).trace = [blockA1, blockA2, blockA3] ∧
    ((main (envA 0) (flagsA 0 120) 4 ⟨0, 0⟩).trace.filter Event.isOutputFrames).length = 1 ∧
    ¬ ((main (envA 0) (flagsA 0 120) 4 ⟨0, 0⟩).trace.filter Event.isOutputFrames).length = 2 := by
  rw [scenarioA_main 0 120 0 (by decide) (by decide)]
  simp [traceA, Event.isOutputFrames, addedBlocks]

/-- C7: on normal termination the loop has left through a false condition with
variables `vf`, and the statements after it follow at once: `OutputBytes()` is
called on the channel as the loop left it, it is the only `OutputBytes` call of
the run, and its value is the reported total frame bytes; every `OutputFrames`
call of the run is followed at once by `Reset`, so none flushes the channel
that is queried.  The reported total transaction bytes is
`totalOutputtedTxSize`: 0 when no `AddBlock` failed, otherwise the value
`totalProcessedTxSize` had at the last failed `AddBlock`; for a positive
threshold it is strictly below the final `totalProcessedTxSize`.  The reported
ratio has those two numbers as operands. -/
theorem report_totals {ω : Type} (env : Collaborators ω) (flags : Flags) (fuel : Nat) (w0 : ω)
    (rep : Report) (hfin : (main env flags fuel w0).outcome = Outcome.finished rep) :
    (∃ es vf,
      mainLoop env flags fuel (initVars flags w0) =
        (es ++ [Event.loopCond vf.i vf.totalProcessedTxSize false], LoopEnd.exited vf) ∧
      (main env flags fuel w0).trace =
        es ++ Event.loopCond vf.i vf.totalProcessedTxSize false :: epilogue env flags vf ∧
      rep.totalFrameSize = env.outputBytes vf.world ∧
      rep.totalOutputtedTxSize = vf.totalOutputtedTxSize ∧
      (0 < flags.minimumTxBytes → rep.totalOutputtedTxSize < vf.totalProcessedTxSize)) ∧
    (main env flags fuel w0).trace.filter Event.isOutputBytes =
      [Event.outputBytes rep.totalFrameSize] ∧
    (∀ pre post, (main env flags fuel w0).trace = pre ++ Event.outputFrames :: post →
      ∃ post', post = Event.reset :: post') ∧
    rep.ratio = { num := rep.totalFrameSize, den := rep.totalOutputtedTxSize } ∧
    ((∀ e ∈ (main env flags fuel w0).trace, e.isAddErr = false) →
      rep.totalOutputtedTxSize = 0) ∧
    (∀ pre i tot blk post',
      (main env flags fuel w0).trace = pre ++ Event.loopCond i tot true ::
        Event.blockByNumber i (some blk) :: Event.addBlock i blk false :: post' →
      (∀ e ∈ post', e.isAddErr = false) → rep.totalOutputtedTxSize = tot) := by
  have hr := main_runFrom env flags fuel w0
  obtain ⟨es, vf, hm, hrep, htr⟩ := main_finished env flags fuel w0 rep hfin
  obtain ⟨hge, es', hes'⟩ := mainLoop_exited env flags fuel _ vf es hm
  obtain ⟨hs1, hs2⟩ := runFrom_snapshot hr rep hfin
  refine ⟨⟨es', vf, ?_, ?_, ?_, ?_, ?_⟩, runFrom_outputBytes hr rep hfin, ?_, ?_, ?_, ?_⟩
  · rw [hm, hes']
  · rw [htr, hes']; simp
  · rw [hrep]; rfl
  · rw [hrep]; rfl
  · intro hmin
    have := runFrom_outputted_lt hr rep hfin (by simpa [initVars] using hmin)
    omega
  · exact fun pre post ht => runFrom_flush_reset hr pre _ post ht rfl
  · rw [hrep]; rfl
  · intro hno
    simpa [initVars] using (hs1 hno).1
  · intro pre i tot blk post' ht hno
    exact (hs2 pre _ _ ht i tot blk post' rfl rfl hno).1

theorem report_totals_witness :
    (main (envA 0) (flagsA 0 120) 4 ⟨0, 0⟩).outcome = Outcome.finished (reportA 0 120) ∧
    (main (envA 0) (flagsA 0 120) 4 ⟨0, 0⟩).trace.filter Event.isOutputBytes =
      [Event.outputBytes (reportA 0 120).totalFrameSize] ∧
    (reportA 0 120).ratio =
      { num := (reportA 0 120).totalFrameSize, den := (reportA 0 120).totalOutputtedTxSize } :=
  have h : (main (envA 0) (flagsA 0 120) 4 ⟨0, 0⟩).outcome = Outcome.finished (reportA 0 120) := by
    rw [scenarioA_main 0 120 0 (by decide) (by decide)]
  ⟨h, (report_totals (envA 0) (flagsA 0 120) 4 ⟨0, 0⟩ (reportA 0 120) h).2.1,
    (report_totals (envA 0) (flagsA 0 120) 4 ⟨0, 0⟩ (reportA 0 120) h).2.2.2.1⟩

/-- C9: for a run that terminates normally with `minimumTxBytes > 0`, the
reported total transaction bytes (`totalOutputtedTxSize`) is strictly below
`minimumTxBytes` and at most the final `totalProcessedTxSize`, which itself is
at least `minimumTxBytes`; and when no `AddBlock` call returned an error the
reported total transaction bytes, the divisor of the ratio, is 0. -/
theorem reported_tx_bytes_below_threshold {ω : Type} (env : Collaborators ω) (flags : Flags)
    (fuel : Nat) (w0 : ω) (rep : Report) (hmin : 0 < flags.minimumTxBytes)
    (hfin : (main env flags fuel w0).outcome = Outcome.finished rep) :
    ∃ es vf, mainLoop env flags fuel (initVars flags w0) = (es, LoopEnd.exited vf) ∧
      rep.totalOutputtedTxSize = vf.totalOutputtedTxSize ∧
      rep.totalOutputtedTxSize < flags.minimumTxBytes ∧
      rep.totalOutputtedTxSize ≤ vf.totalProcessedTxSize ∧
      flags.minimumTxBytes ≤ vf.totalProcessedTxSize ∧
      ((∀ e ∈ (main env flags fuel w0).trace, e.isAddErr = false) →
        rep.totalOutputtedTxSize = 0 ∧ rep.ratio.den = 0) := by
  have hr := main_runFrom env flags fuel w0
  obtain ⟨es, vf, hm, hrep, htr⟩ := main_finished env flags fuel w0 rep hfin
  obtain ⟨hge, es', hes'⟩ := mainLoop_exited env flags fuel _ vf es hm
  have hlt := runFrom_outputted_lt hr rep hfin (by simpa [initVars] using hmin)
  refine ⟨es, vf, hm, by rw [hrep]; rfl, hlt, by omega, hge, ?_⟩
  intro hno
  have h0 : rep.totalOutputtedTxSize = 0 := by
    simpa [initVars] using ((runFrom_snapshot hr rep hfin).1 hno).1
  refine ⟨h0, ?_⟩
  rw [hrep] at h0 ⊢
  exact h0

theorem reported_tx_bytes_below_threshold_witness :
    ((0 : Int) < (flagsA 0 120).minimumTxBytes ∧
      (main (envA 0) (flagsA 0 120) 4 ⟨0, 0⟩).outcome = Outcome.finished (reportA 0 120)) ∧
    ∃ es vf, mainLoop (envA 0) (flagsA 0 120) 4 (initVars (flagsA 0 120) ⟨0, 0⟩) =
        (es, LoopEnd.exited vf) ∧
      (reportA 0 120).totalOutputtedTxSize = vf.totalOutputtedTxSize ∧
      (reportA 0 120).totalOutputtedTxSize < (flagsA 0 120).minimumTxBytes ∧
      (reportA 0 120).totalOutputtedTxSize ≤ vf.totalProcessedTxSize ∧
      (flagsA 0 120).minimumTxBytes ≤ vf.totalProcessedTxSize ∧
      ((∀ e ∈ (main (envA 0) (flagsA 0 120) 4 ⟨0, 0⟩).trace, e.isAddErr = false) →
        (reportA 0 120).totalOutputtedTxSize = 0 ∧ (reportA 0 120).ratio.den = 0) :=
  have h : (main (envA 0) (flagsA 0 120) 4 ⟨0, 0⟩).outcome = Outcome.finished (reportA 0 120) := by
    rw [scenarioA_main 0 120 0 (by decide) (by decide)]
  ⟨⟨by decide, h⟩,
    reported_tx_bytes_below_threshold (envA 0) (flagsA 0 120) 4 ⟨0, 0⟩ (reportA 0 120)
      (by decide) h⟩

theorem addedBlocks_append (t1 t2 : List Event) :
    addedBlocks (t1 ++ t2) = addedBlocks t1 ++ addedBlocks t2 := by
  simp [addedBlocks, List.filterMap_append]

/-- C10: on normal termination the blocks-processed count of the report
(`numBlockProcessed`) is 0 when no `AddBlock` call failed; otherwise it is
`i - startBlock` at the last failed `AddBlock`, which is the number of blocks
successfully added before it.  The number of blocks successfully added by the
end of the run is the final `i - startBlock`; the two differ in scenario A,
where the report says 2 and three blocks were added. -/
theorem reported_block_count_is_stale :
    (∀ {ω : Type} (env : Collaborators ω) (flags : Flags) (fuel : Nat) (w0 : ω) (rep : Report),
      (main env flags fuel w0).outcome = Outcome.finished rep →
        ((∀ e ∈ (main env flags fuel w0).trace, e.isAddErr = false) →
          rep.numBlockProcessed = 0) ∧
        (∀ pre i tot blk post',
          (main env flags fuel w0).trace = pre ++ Event.loopCond i tot true ::
            Event.blockByNumber i (some blk) :: Event.addBlock i blk false :: post' →
          (∀ e ∈ post', e.isAddErr = false) →
            rep.numBlockProcessed = i - flags.startBlock ∧
            rep.numBlockProcessed = ((addedBlocks pre).length : Int)) ∧
        ∃ es vf, mainLoop env flags fuel (initVars flags w0) = (es, LoopEnd.exited vf) ∧
          rep.numBlockProcessed = vf.numBlockProcessed ∧
          vf.i - flags.startBlock =
            ((addedBlocks (main env flags fuel w0).trace).length : Int)) ∧
    (∃ rep, (main (envA 0) (flagsA 0 120) 4 ⟨0, 0⟩).outcome = Outcome.finished rep ∧
      rep.numBlockProcessed = 2 ∧
      (addedBlocks (main (envA 0) (flagsA 0 120) 4 ⟨0, 0⟩).trace).length = 3) := by
  constructor
  · intro ω env flags fuel w0 rep hfin
    have hr := main_runFrom env flags fuel w0
    obtain ⟨es, vf, hm, hrep, htr⟩ := main_finished env flags fuel w0 rep hfin
    obtain ⟨hge, es', hes'⟩ := mainLoop_exited env flags fuel _ vf es hm
    obtain ⟨hs1, hs2⟩ := runFrom_snapshot hr rep hfin
    refine ⟨?_, ?_, es, vf, hm, by rw [hrep]; rfl, ?_⟩
    · intro hno
      simpa [initVars] using (hs1 hno).2
    · intro pre i tot blk post' ht hno
      have h1 := (hs2 pre _ _ ht i tot blk post' rfl rfl hno).2
      have h2 := (runFrom_counter hr pre _ _ ht i tot true rfl).2.2.1
      simp only [initVars] at h2
      exact ⟨h1, by rw [h1, h2]; ring⟩
    · have ht : (main env flags fuel w0).trace =
          es' ++ Event.loopCond vf.i vf.totalProcessedTxSize false :: epilogue env flags vf := by
        rw [htr, hes']; simp
      have h2 := (runFrom_counter hr es' _ _ ht _ _ false rfl).2.2.1
      simp only [initVars] at h2
      have h3 : addedBlocks (main env flags fuel w0).trace = addedBlocks es' := by
        rw [ht, addedBlocks_append]
        simp [addedBlocks, epilogue]
      rw [h3, h2]
      ring
  · refine ⟨reportA 0 120, ?_, rfl, ?_⟩
    · rw [scenarioA_main 0 120 0 (by decide) (by decide)]
    · rw [scenarioA_main 0 120 0 (by decide) (by decide)]
      simp [traceA, addedBlocks]

theorem reported_block_count_is_stale_witness :
    (main (envA 0) (flagsA 0 120) 4 ⟨0, 0⟩).outcome = Outcome.finished (reportA 0 120) ∧
    ∃ es vf, mainLoop (envA 0) (flagsA 0 120) 4 (initVars (flagsA 0 120) ⟨0, 0⟩) =
        (es, LoopEnd.exited vf) ∧
      (reportA 0 120).numBlockProcessed = vf.numBlockProcessed ∧
      vf.i - (flagsA 0 120).startBlock =
        ((addedBlocks (main (envA 0) (flagsA 0 120) 4 ⟨0, 0⟩).trace).length : Int) :=
  have h : (main (envA 0) (flagsA 0 120) 4 ⟨0, 0⟩).outcome = Outcome.finished (reportA 0 120) := by
    rw [scenarioA_main 0 120 0 (by decide) (by decide)]
  ⟨h, (reported_block_count_is_stale.1 (envA 0) (flagsA 0 120) 4 ⟨0, 0⟩ (reportA 0 120) h).2.2⟩

/-! ## Instances -/

theorem calculateTxBytes_sums_non_deposit_witness :
    (∀ tx ∈ blockA2.transactions, tx.txType ≠ DepositTxType → tx.encoded.isSome = true) ∧
    calculateTxBytes blockA2 = some (chargeableBytesSpec blockA2) ∧
    chargeableBytesSpec blockA2 = 40 :=
  ⟨by decide, (calculateTxBytes_sums_non_deposit blockA2 (by decide)).1, by decide⟩

theorem loop_stops_exactly_at_threshold_witness :
    (main (envA 0) (flagsA 0 120) 4 ⟨0, 0⟩).trace =
      (traceA 0 120).take 17 ++ Event.loopCond 3 120 false :: (traceA 0 120).drop 18 ∧
    ((flagsA 0 120).minimumTxBytes ≤ 120 → false = false ∧
      (∃ rep, (main (envA 0) (flagsA 0 120) 4 ⟨0, 0⟩).outcome = Outcome.finished rep) ∧
      (∀ e' ∈ (traceA 0 120).drop 18, e'.isCond = false ∧ e'.isCall = false) ∧
      ∀ i' tot' b', Event.loopCond i' tot' b' ∈ (traceA 0 120).take 17 →
        tot' < (flagsA 0 120).minimumTxBytes) :=
  have h : (main (envA 0) (flagsA 0 120) 4 ⟨0, 0⟩).trace =
      (traceA 0 120).take 17 ++ Event.loopCond 3 120 false :: (traceA 0 120).drop 18 := by
    rw [scenarioA_main 0 120 0 (by decide) (by decide)]
    rfl
  ⟨h, ((loop_stops_exactly_at_threshold (envA 0) (flagsA 0 120) 4 ⟨0, 0⟩).1
    _ _ 3 120 false h).2⟩

theorem overflow_retries_same_height_witness :
    (main (envA 0) (flagsA 0 120) 4 ⟨0, 0⟩).trace =
      (traceA 0 120).take 8 ++ Event.addBlock 2 blockA3 false :: (traceA 0 120).drop 9 ∧
    ∃ tot post', (traceA 0 120).drop 9 = overflowPrints (flagsA 0 120).startBlock 2 tot ++
        Event.outputFrames :: Event.reset :: post' ∧
      (post' = [Event.loopCond 2 tot true] ∨
       post' = [Event.loopCond 2 tot true, Event.blockByNumber 2 none] ∨
       ∃ blk' ok rest, post' = Event.loopCond 2 tot true ::
         Event.blockByNumber 2 (some blk') :: Event.addBlock 2 blk' ok :: rest) :=
  have h : (main (envA 0) (flagsA 0 120) 4 ⟨0, 0⟩).trace =
      (traceA 0 120).take 8 ++ Event.addBlock 2 blockA3 false :: (traceA 0 120).drop 9 := by
    rw [scenarioA_main 0 120 0 (by decide) (by decide)]
    rfl
  ⟨h, (overflow_retries_same_height (envA 0) (flagsA 0 120) 4 ⟨0, 0⟩).1 _ _ 2 blockA3 h⟩

theorem fetch_error_aborts_witness :
    (((envA 5).blockByNumber ⟨0, 0⟩ (flagsA 0 120).startBlock).2 = none ∧
      (0 : Int) < (flagsA 0 120).minimumTxBytes) ∧
    main (envA 5) (flagsA 0 120) 1 ⟨0, 0⟩ =
      { trace := [Event.loopCond (flagsA 0 120).startBlock 0 true,
          Event.blockByNumber (flagsA 0 120).startBlock none],
        outcome := Outcome.fatal } :=
  ⟨⟨by decide, by decide⟩,
    (fetch_error_aborts (envA 5) (flagsA 0 120) ⟨0, 0⟩).2 0 (by decide) (by decide)⟩

theorem zero_threshold_reports_zero_witness :
    (flagsA 7 0).minimumTxBytes = 0 ∧
    ∃ rep : Report,
      (main (envA 7) (flagsA 7 0) 0 ⟨0, 0⟩).outcome = Outcome.finished rep ∧
      rep.totalOutputtedTxSize = 0 ∧ rep.numBlockProcessed = 0 ∧
      rep.ratio = { num := (envA 7).outputBytes ⟨0, 0⟩, den := 0 } ∧
      (main (envA 7) (flagsA 7 0) 0 ⟨0, 0⟩).trace =
        [ Event.loopCond (flagsA 7 0).startBlock 0 false,
          Event.outputBytes ((envA 7).outputBytes ⟨0, 0⟩),
          Event.println [PrintArg.str "total frames size: ",
            PrintArg.int ((envA 7).outputBytes ⟨0, 0⟩)],
          Event.println [PrintArg.str "total tx size: ", PrintArg.int 0],
          Event.println [PrintArg.str "compression ratio: ",
            PrintArg.float { num := (envA 7).outputBytes ⟨0, 0⟩, den := 0 }],
          Event.writeString rep,
          Event.close ] ∧
      ∀ e ∈ (main (envA 7) (flagsA 7 0) 0 ⟨0, 0⟩).trace, e.isCall = false :=
  ⟨rfl, zero_threshold_reports_zero (envA 7) (flagsA 7 0) 0 ⟨0, 0⟩ rfl⟩

theorem processed_counter_is_sum_of_added_witness :
    (main (envA 0) (flagsA 0 120) 4 ⟨0, 0⟩).trace =
      (traceA 0 120).take 17 ++ Event.loopCond 3 120 false :: (traceA 0 120).drop 18 ∧
    (∀ blk ∈ addedBlocks ((traceA 0 120).take 17), (calculateTxBytes blk).isSome = true) ∧
    (120 : Int) = sumTxBytes (addedBlocks ((traceA 0 120).take 17)) ∧
    (3 : Int) = (flagsA 0 120).startBlock + ((addedBlocks ((traceA 0 120).take 17)).length : Int) ∧
    addedHeights ((traceA 0 120).take 17) =
      consecutiveFrom (flagsA 0 120).startBlock (addedBlocks ((traceA 0 120).take 17)).length :=
  have h : (main (envA 0) (flagsA 0 120) 4 ⟨0, 0⟩).trace =
      (traceA 0 120).take 17 ++ Event.loopCond 3 120 false :: (traceA 0 120).drop 18 := by
    rw [scenarioA_main 0 120 0 (by decide) (by decide)]
    rfl
  ⟨h, (processed_counter_is_sum_of_added (envA 0) (flagsA 0 120) 4 ⟨0, 0⟩).1 _ _ 3 120 false h⟩

end BlobCompression
